import Mathlib

/-!
Shallow embedding of the third-party-summary audit
(`src/audits/network.js` of the Network-Plugin repository).

Modelling conventions:

* JavaScript numbers are modelled as rationals (`ℚ`); all arithmetic in the
  audit is exact on the inputs the spec admits (integer byte counts,
  millisecond task times), so `ℚ` is a faithful model.
* A JavaScript `Map` with string keys is modelled as an insertion-ordered
  association list (`JsMap`): `mget` finds the first binding, `mset`
  overwrites an existing binding in place or appends a new binding at the
  end — exactly the observable behaviour of `Map.get` / `Map.set`.
* `Array.prototype.sort` with a comparator is a stable sort; it is modelled
  by `List.insertionSort` with the total preorder induced by the comparator
  (a stable sort with respect to a total preorder is unique as a function,
  so the choice of sorting algorithm is immaterial).
* The external lighthouse helpers are out of scope per the spec (§1, §9):
  `getJavaScriptURLs`/`getAttributableURLForTask` are abstracted into an
  injected attribution function `attrib : TaskNode → String` (the spec directs
  exactly this injection), and `new URL(u).host` is abstracted into an
  injected total parse function `host : String → String`.
* `getSummaries` as written in the source reads the variable `byURL`, which
  is never declared anywhere in the module, so every real invocation throws
  `ReferenceError: byURL is not defined`.  That behaviour is embedded
  verbatim as `getSummariesAsWritten` below.  The spec (§4.1, §9 open
  question) identifies this as a latent defect and directs implementing the
  corrected version in which `byURL` is a fresh local map; `getSummaries`
  below is that corrected version, line for line otherwise.
-/

/-- A JavaScript string-keyed `Map`, as an insertion-ordered association
list. -/
abbrev JsMap (α : Type) : Type := List (String × α)

/-- `Map.get`: the value of the first (unique) binding of the key, if any. -/
def mget {α : Type} : JsMap α → String → Option α
  | [], _ => none
  | (k₁, v) :: rest, k => if k₁ = k then some v else mget rest k

/-- `Map.set`: overwrite the binding in place if the key is present,
otherwise append a new binding at the end. -/
def mset {α : Type} : JsMap α → String → α → JsMap α
  | [], k, v => [(k, v)]
  | (k₁, v₁) :: rest, k, v =>
    if k₁ = k then (k, v) :: rest else (k₁, v₁) :: mset rest k v

/-- An observed network request (`{url, transferSize}`). -/
structure NetworkRecord where
  url : String
  transferSize : ℚ
deriving DecidableEq

/-- A main-thread task.  `selfTime` is its unscaled self time in
milliseconds; `meta` abstracts the event/stack payload that the external
`getAttributableURLForTask` inspects, so that an arbitrary per-task
attribution is representable by a function `TaskNode → String`. -/
structure TaskNode where
  selfTime : ℚ
  meta : String
deriving DecidableEq

/-- Per-URL (and per-entity) accumulated totals. -/
structure UrlSummary where
  mainThreadTime : ℚ
  blockingTime : ℚ
  transferSize : ℚ
deriving DecidableEq

/-- `{ mainThreadTime: 0, blockingTime: 0, transferSize: 0 }` (line 37). -/
def defaultSummary : UrlSummary :=
  { mainThreadTime := 0, blockingTime := 0, transferSize := 0 }

/-- `PASS_THRESHOLD_IN_MS = 250` (line 20). -/
def PASS_THRESHOLD_IN_MS : ℚ := 250

/-- `MIN_TRANSFER_SIZE_FOR_SUBITEMS = 4096` (line 21). -/
def MIN_TRANSFER_SIZE_FOR_SUBITEMS : ℚ := 4096

/-- `MAX_SUBITEMS = 100` (line 23). -/
def MAX_SUBITEMS : Nat := 100

/-- The localized label of the synthetic remainder row
(`i18n.UIStrings.otherResourcesLabel`, line 98). -/
def otherResourcesLabel : String := "Other resources"

/-- One iteration of the network-record loop (lines 39–43): accumulate the
record's `transferSize` into the summary of its URL. -/
def addRecord (byURL : JsMap UrlSummary) (request : NetworkRecord) : JsMap UrlSummary :=
  let urlSummary := (mget byURL request.url).getD defaultSummary
  mset byURL request.url
    { urlSummary with transferSize := urlSummary.transferSize + request.transferSize }

/-- One iteration of the task loop (lines 47–55): scale the task's self time
by the CPU multiplier, add the scaled duration to the attributed URL's
`mainThreadTime` and `max(duration − 50, 0)` to its `blockingTime`. -/
def addTask (attrib : TaskNode → String) (cpuMultiplier : ℚ)
    (byURL : JsMap UrlSummary) (task : TaskNode) : JsMap UrlSummary :=
  let attributableURL := attrib task
  let urlSummary := (mget byURL attributableURL).getD defaultSummary
  let taskDuration := task.selfTime * cpuMultiplier
  mset byURL attributableURL
    { urlSummary with
      mainThreadTime := urlSummary.mainThreadTime + taskDuration,
      blockingTime := urlSummary.blockingTime + max (taskDuration - 50) 0 }

/-- One iteration of the entity loop (lines 57–68): fold one `byURL` entry
into its entity's summary and append the URL to the entity's URL list.  The
accumulator is the pair `(byEntity, urls)`. -/
def entityStep (host : String → String)
    (acc : JsMap UrlSummary × JsMap (List String))
    (p : String × UrlSummary) : JsMap UrlSummary × JsMap (List String) :=
  let entity := host p.fst
  let entitySummary := (mget acc.fst entity).getD defaultSummary
  let byEntity := mset acc.fst entity
    { transferSize := entitySummary.transferSize + p.snd.transferSize,
      mainThreadTime := entitySummary.mainThreadTime + p.snd.mainThreadTime,
      blockingTime := entitySummary.blockingTime + p.snd.blockingTime }
  let entityURLs := (mget acc.snd entity).getD []
  (byEntity, mset acc.snd entity (entityURLs ++ [p.fst]))

/-- The record returned by `getSummaries` (line 70). -/
structure Summaries where
  byURL : JsMap UrlSummary
  byEntity : JsMap UrlSummary
  urls : JsMap (List String)
deriving DecidableEq

/-- `getSummaries` (lines 35–71) with the spec-directed correction (§4.1,
§9): `byURL` is a fresh empty map at the start of each invocation.  The
network loop, the task loop and the entity loop are otherwise as in the
source; the diagnostic `console.log` (line 69) has no observable effect and
is dropped. -/
def getSummaries (attrib : TaskNode → String) (host : String → String)
    (networkRecords : List NetworkRecord) (mainThreadTasks : List TaskNode)
    (cpuMultiplier : ℚ) : Summaries :=
  let byURL := networkRecords.foldl addRecord []
  let byURL := mainThreadTasks.foldl (addTask attrib cpuMultiplier) byURL
  let folded := byURL.foldl (entityStep host) ([], [])
  { byURL := byURL, byEntity := folded.fst, urls := folded.snd }

/-- A thrown JavaScript error. -/
inductive JsError
  | referenceError (name : String)
deriving DecidableEq

/-- `getSummaries` exactly as written in the source: `byURL` is referenced
(lines 40/42, 50/54, 57) but never declared, so the first executed statement
that touches it throws `ReferenceError: byURL is not defined` — with records
present that is the first loop iteration (line 40), with no records but
tasks present the first task iteration (line 50), and with both inputs empty
the `byURL.entries()` call (line 57).  Every invocation therefore fails. -/
def getSummariesAsWritten (networkRecords : List NetworkRecord)
    (mainThreadTasks : List TaskNode) (cpuMultiplier : ℚ) : Except JsError Summaries :=
  match networkRecords with
  | _ :: _ => Except.error (JsError.referenceError ("byURL"))
  | [] =>
    match mainThreadTasks with
    | _ :: _ => Except.error (JsError.referenceError ("byURL"))
    | [] => Except.error (JsError.referenceError ("byURL"))

/-- A sub-item row: a contributing URL (or the "other resources" label) with
its bytes and blocking time.  URL-derived items in the source also carry the
spread `mainThreadTime` field; nothing downstream reads it, so it is not
modelled. -/
structure SubItem where
  url : String
  transferSize : ℚ
  blockingTime : ℚ
deriving DecidableEq

/-- The total preorder induced by the sub-item comparator
`(a, b) => (b.blockingTime - a.blockingTime) || (b.transferSize - a.transferSize)`
(line 77): `subItemBefore a b` states that the comparator does not order `b`
strictly before `a`. -/
def subItemBefore (a b : SubItem) : Prop :=
  b.blockingTime < a.blockingTime ∨
    (b.blockingTime = a.blockingTime ∧ b.transferSize ≤ a.transferSize)

instance : DecidableRel subItemBefore := fun a b => by
  unfold subItemBefore
  infer_instance

/-- `summaries.urls.get(entity) || []` (line 73). -/
def entityURLsOf (entity : String) (summaries : Summaries) : List String :=
  (mget summaries.urls entity).getD []

/-- `{ url, ...summaries.byURL.get(url) }` (line 75).  A URL missing from
`byURL` yields spread-of-`undefined` fields in the source and is removed by
the `transferSize > 0` filter; looking it up as `defaultSummary` (all
zeros) is removed by the same filter. -/
def subItemOfURL (summaries : Summaries) (url : String) : SubItem :=
  let s := (mget summaries.byURL url).getD defaultSummary
  SubItem.mk url s.transferSize s.blockingTime

/-- Lines 73–77 of `makeSubItems`: join the entity's URLs to their `byURL`
summaries, discard zero-transfer URLs, and stable-sort by descending
blocking time with descending transfer size as tie-break. -/
def candidateItems (entity : String) (summaries : Summaries) : List SubItem :=
  List.insertionSort subItemBefore
    (((entityURLsOf entity summaries).map (subItemOfURL summaries)).filter
      (fun stat => decide (0 < stat.transferSize)))

/-- `minTransferSize = Math.max(MIN_TRANSFER_SIZE_FOR_SUBITEMS, stats.transferSize / 20)`
(line 80). -/
def minTransferSizeOf (stats : UrlSummary) : ℚ :=
  max MIN_TRANSFER_SIZE_FOR_SUBITEMS (stats.transferSize / 20)

/-- The `while` loop of lines 82–92 as a function of the remaining fuel
(`maxSubItems − numSubItems`): walk the sorted candidates, stopping at the
first item with zero blocking time and transfer size below the floor; the
returned prefix is exactly `items.slice(0, numSubItems)` (line 96). -/
def selectLoop (minTransferSize : ℚ) : List SubItem → Nat → List SubItem
  | _, 0 => []
  | [], _ => []
  | item :: rest, n + 1 =>
    if item.blockingTime = 0 ∧ item.transferSize < minTransferSize then []
    else item :: selectLoop minTransferSize rest n

/-- The selected prefix of the candidate list, with fuel
`maxSubItems = Math.min(MAX_SUBITEMS, items.length)` (line 81). -/
def selectedSubItems (entity : String) (summaries : Summaries) (stats : UrlSummary) : List SubItem :=
  let items := candidateItems entity summaries
  selectLoop (minTransferSizeOf stats) items (min MAX_SUBITEMS items.length)

/-- `subitemSummary.transferSize` after the loop (lines 79, 90). -/
def selectedTransferSize (entity : String) (summaries : Summaries) (stats : UrlSummary) : ℚ :=
  ((selectedSubItems entity summaries stats).map (fun i => i.transferSize)).sum

/-- `subitemSummary.blockingTime` after the loop (lines 79, 91). -/
def selectedBlockingTime (entity : String) (summaries : Summaries) (stats : UrlSummary) : ℚ :=
  ((selectedSubItems entity summaries stats).map (fun i => i.blockingTime)).sum

/-- The synthetic "other resources" remainder row (lines 97–101). -/
def remainderOf (entity : String) (summaries : Summaries) (stats : UrlSummary) : SubItem :=
  SubItem.mk otherResourcesLabel
    (stats.transferSize - selectedTransferSize entity summaries stats)
    (stats.blockingTime - selectedBlockingTime entity summaries stats)

/-- `makeSubItems` (lines 72–106): return `[]` when the selected subtotal is
entirely zero (line 93); otherwise the selected prefix, with the remainder
appended exactly when `remainder.transferSize > minTransferSize`
(line 102). -/
def makeSubItems (entity : String) (summaries : Summaries) (stats : UrlSummary) : List SubItem :=
  if selectedBlockingTime entity summaries stats = 0 ∧
      selectedTransferSize entity summaries stats = 0 then []
  else
    let remainder := remainderOf entity summaries stats
    if minTransferSizeOf stats < remainder.transferSize then
      selectedSubItems entity summaries stats ++ [remainder]
    else
      selectedSubItems entity summaries stats

/-- The audit settings consulted on lines 109, 115–116. -/
structure Settings where
  throttlingMethod : String
  cpuSlowdownMultiplier : ℚ
deriving DecidableEq

/-- The artifacts consumed by `audit`: the page's final URL and the
already-computed network records and main-thread tasks (the asynchronous
`NetworkRecords.request` / `MainThreadTasks.request` fetches are external
collaborators, out of scope per spec §1/§5). -/
structure Artifacts where
  finalUrl : String
  networkRecords : List NetworkRecord
  mainThreadTasks : List TaskNode
deriving DecidableEq

/-- One report row (lines 127–138).  `entityText` and `entityUrl` model the
`entity` display descriptor `{type: 'link', text: entity, url: entity || ''}`;
since the empty string is the only falsy string, `entity || ''` always
equals `entity`. -/
structure ReportRow where
  mainThreadTime : ℚ
  blockingTime : ℚ
  transferSize : ℚ
  entityText : String
  entityUrl : String
  subItems : List SubItem
deriving DecidableEq

/-- `overallSummary` (line 119), accumulated over the filtered rows. -/
structure OverallSummary where
  wastedBytes : ℚ
  wastedMs : ℚ
deriving DecidableEq

/-- The value returned by `audit`: the not-applicable return (lines 148–153)
has `notApplicable := true` and carries no display value, rows or overall
summary; the scored return (lines 155–161) has `notApplicable := false`. -/
structure AuditResult where
  score : ℚ
  notApplicable : Bool
  displayValue : Option ℚ
  rows : List ReportRow
  overall : Option OverallSummary
deriving DecidableEq

/-- `settings.throttlingMethod === 'simulate' ? settings.throttling.cpuSlowdownMultiplier : 1`
(lines 115–116). -/
def multiplierOf (settings : Settings) : ℚ :=
  if settings.throttlingMethod = "simulate" then settings.cpuSlowdownMultiplier else 1

/-- The total preorder induced by the row comparator of line 140 (same shape
as the sub-item comparator). -/
def rowBefore (a b : ReportRow) : Prop :=
  b.blockingTime < a.blockingTime ∨
    (b.blockingTime = a.blockingTime ∧ b.transferSize ≤ a.transferSize)

instance : DecidableRel rowBefore := fun a b => by
  unfold rowBefore
  infer_instance

/-- The first-party filter of line 122, `!(mainEntity && mainEntity === entity)`:
a JavaScript string is truthy exactly when it is nonempty. -/
def keptByFilter (mainEntity entity : String) : Prop :=
  ¬ (mainEntity ≠ "" ∧ mainEntity = entity)

instance : ∀ m e, Decidable (keptByFilter m e) := fun m e => by
  unfold keptByFilter
  infer_instance

/-- The `summaries` local of `audit` (line 118). -/
def auditSummaries (attrib : TaskNode → String) (host : String → String)
    (artifacts : Artifacts) (settings : Settings) : Summaries :=
  getSummaries attrib host artifacts.networkRecords artifacts.mainThreadTasks
    (multiplierOf settings)

/-- The `byEntity` entries surviving the first-party filter (lines 121–122). -/
def auditFiltered (attrib : TaskNode → String) (host : String → String)
    (artifacts : Artifacts) (settings : Settings) : JsMap UrlSummary :=
  (auditSummaries attrib host artifacts settings).byEntity.filter
    (fun p => decide (keptByFilter (host artifacts.finalUrl) p.fst))

/-- `overallSummary` after the `map` callback has run over every filtered
entry (lines 119, 124–125): it is mutated inside the callback before the
sort in the source, which is the same as summing over the filtered
entries. -/
def auditOverall (attrib : TaskNode → String) (host : String → String)
    (artifacts : Artifacts) (settings : Settings) : OverallSummary :=
  OverallSummary.mk
    (((auditFiltered attrib host artifacts settings).map (fun p => p.snd.transferSize)).sum)
    (((auditFiltered attrib host artifacts settings).map (fun p => p.snd.blockingTime)).sum)

/-- `results` (lines 121–140): one report row per surviving entity, ranked
by the row comparator. -/
def auditRows (attrib : TaskNode → String) (host : String → String)
    (artifacts : Artifacts) (settings : Settings) : List ReportRow :=
  List.insertionSort rowBefore
    ((auditFiltered attrib host artifacts settings).map (fun p =>
      ReportRow.mk p.snd.mainThreadTime p.snd.blockingTime p.snd.transferSize
        p.fst p.fst
        (makeSubItems p.fst (auditSummaries attrib host artifacts settings) p.snd)))

/-- `audit` (lines 108–162): compute the summaries, drop the first-party
entity, accumulate the overall summary over the remaining entities, build
and rank the report rows, and return either the not-applicable result
(lines 148–153, zero rows) or the scored result (lines 155–161). -/
def audit (attrib : TaskNode → String) (host : String → String)
    (artifacts : Artifacts) (settings : Settings) : AuditResult :=
  let overall := auditOverall attrib host artifacts settings
  let results := auditRows attrib host artifacts settings
  if results.length = 0 then
    AuditResult.mk 1 true none [] none
  else
    AuditResult.mk (if overall.wastedMs ≤ PASS_THRESHOLD_IN_MS then 1 else 0)
      false (some overall.wastedMs) results (some overall)

/-- Sum of a field of every value in a map. -/
def sumBy (f : UrlSummary → ℚ) (m : JsMap UrlSummary) : ℚ :=
  (m.map (fun p => f p.snd)).sum

/-- Fieldwise sum of two summaries — the value stored by the entity loop
(lines 60–62). -/
def addSummaries (s v : UrlSummary) : UrlSummary :=
  { mainThreadTime := s.mainThreadTime + v.mainThreadTime,
    blockingTime := s.blockingTime + v.blockingTime,
    transferSize := s.transferSize + v.transferSize }

/-- Every summary stored in the map has `blockingTime ≤ mainThreadTime`. -/
def mapWF (m : JsMap UrlSummary) : Prop :=
  ∀ p ∈ m, p.snd.blockingTime ≤ p.snd.mainThreadTime

instance : ∀ m, Decidable (mapWF m) := fun m => by
  unfold mapWF
  infer_instance

/-- Concrete attribution used by the example inputs: the task's payload is
its attributed URL. -/
def attribEx : TaskNode → String := fun task => task.meta

/-- Concrete host parse used by the example inputs: hosts of the handful of
example URLs, mirroring the WHATWG parser (a `file:` URL has an empty
host). -/
def hostEx : String → String := fun url =>
  if url = "https://a.com/x.js" then "a.com"
  else if url = "https://b.com/" then "b.com"
  else if url = "https://b.com/y.js" then "b.com"
  else ""

/-- Example settings with non-simulated throttling (multiplier 1). -/
def settingsEx : Settings := Settings.mk "provided" 4

/-- Example artifacts: a third-party script plus a first-party script, page
hosted on `b.com`. -/
def artifactsEx : Artifacts :=
  Artifacts.mk "https://b.com/"
    [NetworkRecord.mk "https://a.com/x.js" 100, NetworkRecord.mk "https://b.com/y.js" 60]
    [TaskNode.mk 80 "https://a.com/x.js"]

/-- Example artifacts with no records and no tasks (the `EmptyInput` case of
spec §7). -/
def artifactsEmpty : Artifacts := Artifacts.mk "https://b.com/" [] []

/-- Example artifacts whose final URL parses to an empty host (a `file:`
page), with one resource whose URL also has an empty host. -/
def artifactsFile : Artifacts :=
  Artifacts.mk "file:///page" [NetworkRecord.mk "file:///res" 100] []

/-- Host parse for the `file:` example: both example `file:` URLs have an
empty host, as under the WHATWG parser. -/
def hostFile : String → String := fun url =>
  if url = "file:///page" then "" else if url = "file:///res" then "" else "other"

/-- The 200 distinct low-cost URLs of spec §8 Scenario 5. -/
def urls200 : List String :=
  (List.range 200).map (fun i => "https://a.com/r" ++ toString i)

/-- Per-URL map of Scenario 5: every URL transferred 100 bytes, with no
main-thread time. -/
def byURL200 : JsMap UrlSummary :=
  urls200.map (fun u => (u, UrlSummary.mk 0 0 100))

/-- Summaries of Scenario 5: one entity owning all 200 URLs, 20000 bytes in
total. -/
def summaries200 : Summaries :=
  Summaries.mk byURL200 [("a.com", UrlSummary.mk 0 0 20000)] [("a.com", urls200)]

/-- The entity summary of Scenario 5. -/
def stats200 : UrlSummary := UrlSummary.mk 0 0 20000

/-- A one-URL entity whose lone URL is far below the relevance floor while
the entity total is far above it: the selected subtotal stays zero, so
`makeSubItems` returns `[]` without ever considering the remainder. -/
def summariesSmall : Summaries :=
  Summaries.mk [("https://a.com/x.js", UrlSummary.mk 0 0 100)]
    [("a.com", UrlSummary.mk 0 0 20000)] [("a.com", ["https://a.com/x.js"])]

/-- The entity summary paired with `summariesSmall`. -/
def statsSmall : UrlSummary := UrlSummary.mk 0 0 20000

/-- A one-URL entity whose lone URL carries the whole 10000-byte total:
the URL is selected and the remainder is empty. -/
def summariesBig : Summaries :=
  Summaries.mk [("https://a.com/x.js", UrlSummary.mk 0 0 10000)]
    [("a.com", UrlSummary.mk 0 0 10000)] [("a.com", ["https://a.com/x.js"])]

/-- The entity summary paired with `summariesBig`. -/
def statsBig : UrlSummary := UrlSummary.mk 0 0 10000

/-! ### Lemmas about the map model -/

theorem mget_mset_self {α : Type} (m : JsMap α) (k : String) (v : α) :
    mget (mset m k v) k = some v := by
  induction m with
  | nil => simp [mset, mget]
  | cons q rest ih =>
    obtain ⟨k₁, v₁⟩ := q
    by_cases h : k₁ = k
    · simp [mset, mget, h]
    · simp [mset, mget, h, ih]

theorem mem_mset {α : Type} {m : JsMap α} {k : String} {v : α} {p : String × α}
    (hp : p ∈ mset m k v) : p = (k, v) ∨ p ∈ m := by
  induction m with
  | nil => simpa [mset] using hp
  | cons q rest ih =>
    obtain ⟨k₁, v₁⟩ := q
    by_cases h : k₁ = k
    · simp only [mset, h, if_pos rfl] at hp
      rcases List.mem_cons.mp hp with h1 | h1
      · exact Or.inl h1
      · exact Or.inr (List.mem_cons_of_mem _ h1)
    · simp only [mset, if_neg h] at hp
      rcases List.mem_cons.mp hp with h1 | h1
      · exact Or.inr (List.mem_cons.mpr (Or.inl h1))
      · rcases ih h1 with h2 | h2
        · exact Or.inl h2
        · exact Or.inr (List.mem_cons_of_mem _ h2)

theorem mget_mem {α : Type} {m : JsMap α} {k : String} {v : α}
    (h : mget m k = some v) : (k, v) ∈ m := by
  induction m with
  | nil => simp [mget] at h
  | cons q rest ih =>
    obtain ⟨k₁, v₁⟩ := q
    by_cases hk : k₁ = k
    · subst hk
      simp only [mget, if_pos rfl] at h
      have hv : v₁ = v := Option.some.inj h
      subst hv
      exact List.mem_cons_self _ _
    · simp only [mget, if_neg hk] at h
      exact List.mem_cons_of_mem _ (ih h)

/-! ### Conservation of field sums through the aggregation folds -/

theorem sumBy_nil (f : UrlSummary → ℚ) : sumBy f [] = 0 := rfl

theorem sumBy_cons (f : UrlSummary → ℚ) (p : String × UrlSummary) (m : JsMap UrlSummary) :
    sumBy f (p :: m) = f p.snd + sumBy f m := by
  simp [sumBy]

theorem sumBy_mset (f : UrlSummary → ℚ) (hf : f defaultSummary = 0)
    (m : JsMap UrlSummary) (k : String) (w : UrlSummary) :
    sumBy f (mset m k w) = sumBy f m + f w - f ((mget m k).getD defaultSummary) := by
  induction m with
  | nil => simp [mset, mget, sumBy, hf]
  | cons q rest ih =>
    obtain ⟨k₁, v₁⟩ := q
    by_cases h : k₁ = k
    · simp only [mset, if_pos h, mget]
      rw [sumBy_cons, sumBy_cons]
      simp only [if_pos h, Option.getD_some]
      ring
    · simp only [mset, if_neg h, mget]
      rw [sumBy_cons, sumBy_cons, ih]
      simp only [if_neg h]
      ring

/-- Field-sum evolution of a generic get-add-set fold: the fold of a step
that replaces the binding of `key b` by `upd b` applied to the current value
(default when absent) changes the sum of `f` by `g b` per element. -/
theorem sumBy_foldl_update {β : Type} (f : UrlSummary → ℚ) (hf : f defaultSummary = 0)
    (key : β → String) (upd : β → UrlSummary → UrlSummary) (g : β → ℚ)
    (hupd : ∀ (b : β) (s : UrlSummary), f (upd b s) = f s + g b) :
    ∀ (l : List β) (m : JsMap UrlSummary),
      sumBy f (l.foldl (fun m₁ b => mset m₁ (key b) (upd b ((mget m₁ (key b)).getD defaultSummary))) m)
        = sumBy f m + (l.map g).sum := by
  intro l
  induction l with
  | nil => intro m; simp
  | cons b rest ih =>
    intro m
    simp only [List.foldl_cons, List.map_cons, List.sum_cons]
    rw [ih, sumBy_mset f hf, hupd]
    ring

theorem sumBy_foldl_addRecord (f : UrlSummary → ℚ) (hf : f defaultSummary = 0)
    (g : NetworkRecord → ℚ)
    (hupd : ∀ (r : NetworkRecord) (s : UrlSummary),
      f { s with transferSize := s.transferSize + r.transferSize } = f s + g r) :
    ∀ (l : List NetworkRecord) (m : JsMap UrlSummary),
      sumBy f (l.foldl addRecord m) = sumBy f m + (l.map g).sum := by
  intro l m
  exact sumBy_foldl_update f hf (fun r => r.url)
    (fun r s => { s with transferSize := s.transferSize + r.transferSize }) g hupd l m

theorem sumBy_foldl_addTask (attrib : TaskNode → String) (cpuMultiplier : ℚ)
    (f : UrlSummary → ℚ) (hf : f defaultSummary = 0)
    (g : TaskNode → ℚ)
    (hupd : ∀ (t : TaskNode) (s : UrlSummary),
      f { s with
            mainThreadTime := s.mainThreadTime + t.selfTime * cpuMultiplier,
            blockingTime := s.blockingTime + max (t.selfTime * cpuMultiplier - 50) 0 }
        = f s + g t) :
    ∀ (l : List TaskNode) (m : JsMap UrlSummary),
      sumBy f (l.foldl (addTask attrib cpuMultiplier) m) = sumBy f m + (l.map g).sum := by
  intro l m
  exact sumBy_foldl_update f hf attrib
    (fun t s => { s with
      mainThreadTime := s.mainThreadTime + t.selfTime * cpuMultiplier,
      blockingTime := s.blockingTime + max (t.selfTime * cpuMultiplier - 50) 0 }) g hupd l m

theorem sumBy_entityFold (host : String → String) (f : UrlSummary → ℚ)
    (hf : f defaultSummary = 0)
    (hlin : ∀ s v : UrlSummary, f (addSummaries s v) = f s + f v) :
    ∀ (l : JsMap UrlSummary) (acc : JsMap UrlSummary × JsMap (List String)),
      sumBy f (l.foldl (entityStep host) acc).fst = sumBy f acc.fst + sumBy f l := by
  intro l
  induction l with
  | nil => intro acc; simp [sumBy]
  | cons p rest ih =>
    intro acc
    simp only [List.foldl_cons]
    rw [ih, sumBy_cons]
    have hstep : (entityStep host acc p).fst
        = mset acc.fst (host p.fst)
            (addSummaries ((mget acc.fst (host p.fst)).getD defaultSummary) p.snd) := rfl
    rw [hstep, sumBy_mset f hf, hlin]
    ring

/-- C1: for every input sequence of network records and tasks and every
cpuMultiplier, the summaries returned by `getSummaries` conserve totals: the
sum of `EntitySummary.transferSize` over all entities equals the sum of the
records' `transferSize`, and the sums of `mainThreadTime` and `blockingTime`
over all entities equal, respectively, the sum of scaled task self-times and
the sum of per-task clipped blocking contributions. -/
theorem c1_conservation (attrib : TaskNode → String) (host : String → String)
    (networkRecords : List NetworkRecord) (mainThreadTasks : List TaskNode)
    (cpuMultiplier : ℚ) :
    sumBy (fun s => s.transferSize)
        (getSummaries attrib host networkRecords mainThreadTasks cpuMultiplier).byEntity
      = (networkRecords.map (fun r => r.transferSize)).sum
    ∧ sumBy (fun s => s.mainThreadTime)
        (getSummaries attrib host networkRecords mainThreadTasks cpuMultiplier).byEntity
      = (mainThreadTasks.map (fun t => t.selfTime * cpuMultiplier)).sum
    ∧ sumBy (fun s => s.blockingTime)
        (getSummaries attrib host networkRecords mainThreadTasks cpuMultiplier).byEntity
      = (mainThreadTasks.map (fun t => max (t.selfTime * cpuMultiplier - 50) 0)).sum := by
  have hE : (getSummaries attrib host networkRecords mainThreadTasks cpuMultiplier).byEntity
      = ((mainThreadTasks.foldl (addTask attrib cpuMultiplier)
            (networkRecords.foldl addRecord [])).foldl (entityStep host)
          (([], []) : JsMap UrlSummary × JsMap (List String))).fst := rfl
  refine ⟨?_, ?_, ?_⟩
  · rw [hE,
      sumBy_entityFold host (fun s => s.transferSize) rfl (fun s v => rfl),
      sumBy_foldl_addTask attrib cpuMultiplier (fun s => s.transferSize) rfl
        (fun _ => 0) (by intro t s; simp),
      sumBy_foldl_addRecord (fun s => s.transferSize) rfl
        (fun r => r.transferSize) (fun r s => rfl)]
    simp [sumBy]
  · rw [hE,
      sumBy_entityFold host (fun s => s.mainThreadTime) rfl (fun s v => rfl),
      sumBy_foldl_addTask attrib cpuMultiplier (fun s => s.mainThreadTime) rfl
        (fun t => t.selfTime * cpuMultiplier) (fun t s => rfl),
      sumBy_foldl_addRecord (fun s => s.mainThreadTime) rfl
        (fun _ => 0) (by intro r s; simp)]
    simp [sumBy]
  · rw [hE,
      sumBy_entityFold host (fun s => s.blockingTime) rfl (fun s v => rfl),
      sumBy_foldl_addTask attrib cpuMultiplier (fun s => s.blockingTime) rfl
        (fun t => max (t.selfTime * cpuMultiplier - 50) 0) (fun t s => rfl),
      sumBy_foldl_addRecord (fun s => s.blockingTime) rfl
        (fun _ => 0) (by intro r s; simp)]
    simp [sumBy]

/-- C4: for every task processed by `getSummaries` (one step of the task
loop, from any intermediate `byURL` state), the attributed URL's summary
after the step is the summary before the step with exactly
`selfTime × cpuMultiplier` added to `mainThreadTime` and exactly
`max(selfTime × cpuMultiplier − 50, 0)` — a never-negative amount — added to
`blockingTime`. -/
theorem c4_blocking_contribution (attrib : TaskNode → String) (cpuMultiplier : ℚ)
    (byURL : JsMap UrlSummary) (task : TaskNode) :
    mget (addTask attrib cpuMultiplier byURL task) (attrib task)
      = some { (mget byURL (attrib task)).getD defaultSummary with
               mainThreadTime :=
                 ((mget byURL (attrib task)).getD defaultSummary).mainThreadTime
                   + task.selfTime * cpuMultiplier,
               blockingTime :=
                 ((mget byURL (attrib task)).getD defaultSummary).blockingTime
                   + max (task.selfTime * cpuMultiplier - 50) 0 }
    ∧ 0 ≤ max (task.selfTime * cpuMultiplier - 50) 0 :=
  ⟨mget_mset_self _ _ _, le_max_right _ _⟩

/-- C5 (code bug): in the source the per-URL map `byURL` is read before it
has ever been assigned — it is never declared — so far from building a fresh
per-URL map and completing, every invocation of `getSummaries` as written
fails with `ReferenceError: byURL is not defined`. -/
theorem c5_reference_error (networkRecords : List NetworkRecord)
    (mainThreadTasks : List TaskNode) (cpuMultiplier : ℚ) :
    getSummariesAsWritten networkRecords mainThreadTasks cpuMultiplier
      = Except.error (JsError.referenceError ("byURL")) := by
  unfold getSummariesAsWritten
  cases networkRecords <;> cases mainThreadTasks <;> rfl

/-! ### The blockingTime ≤ mainThreadTime invariant -/

theorem mapWF_nil : mapWF [] := by
  intro p hp
  cases hp

theorem getD_wf {m : JsMap UrlSummary} (hm : mapWF m) (k : String) :
    ((mget m k).getD defaultSummary).blockingTime
      ≤ ((mget m k).getD defaultSummary).mainThreadTime := by
  cases h : mget m k with
  | none => simp [defaultSummary]
  | some v =>
    simp only [h, Option.getD_some]
    exact hm (k, v) (mget_mem h)

theorem mapWF_mset {m : JsMap UrlSummary} {k : String} {w : UrlSummary}
    (hm : mapWF m) (hw : w.blockingTime ≤ w.mainThreadTime) : mapWF (mset m k w) := by
  intro p hp
  rcases mem_mset hp with h | h
  · rw [h]
    exact hw
  · exact hm p h

theorem mapWF_addRecord {m : JsMap UrlSummary} (hm : mapWF m) (r : NetworkRecord) :
    mapWF (addRecord m r) :=
  mapWF_mset hm (getD_wf hm r.url)

theorem mapWF_addTask {m : JsMap UrlSummary} (attrib : TaskNode → String)
    {cpuMultiplier : ℚ} (hm : mapWF m) (t : TaskNode)
    (ht : 0 ≤ t.selfTime * cpuMultiplier) :
    mapWF (addTask attrib cpuMultiplier m t) := by
  refine mapWF_mset hm ?_
  have h1 := getD_wf hm (attrib t)
  have h2 : max (t.selfTime * cpuMultiplier - 50) 0 ≤ t.selfTime * cpuMultiplier :=
    max_le (by linarith) ht
  simpa using add_le_add h1 h2

theorem mapWF_foldl_addRecord :
    ∀ (l : List NetworkRecord) (m : JsMap UrlSummary), mapWF m →
      mapWF (l.foldl addRecord m) := by
  intro l
  induction l with
  | nil => intro m hm; exact hm
  | cons r rest ih =>
    intro m hm
    exact ih (addRecord m r) (mapWF_addRecord hm r)

theorem mapWF_foldl_addTask (attrib : TaskNode → String) {cpuMultiplier : ℚ}
    (hmult : 0 ≤ cpuMultiplier) :
    ∀ (l : List TaskNode), (∀ t ∈ l, 0 ≤ t.selfTime) →
      ∀ m : JsMap UrlSummary, mapWF m →
        mapWF (l.foldl (addTask attrib cpuMultiplier) m) := by
  intro l
  induction l with
  | nil => intro _ m hm; exact hm
  | cons t rest ih =>
    intro hl m hm
    refine ih (fun x hx => hl x (List.mem_cons_of_mem _ hx)) _ ?_
    exact mapWF_addTask attrib hm t
      (mul_nonneg (hl t (List.mem_cons_self _ _)) hmult)

theorem mapWF_entityFold (host : String → String) :
    ∀ (l : JsMap UrlSummary) (acc : JsMap UrlSummary × JsMap (List String)),
      mapWF acc.fst → mapWF l →
        mapWF ((l.foldl (entityStep host) acc).fst) := by
  intro l
  induction l with
  | nil => intro acc hacc _; exact hacc
  | cons p rest ih =>
    intro acc hacc hl
    simp only [List.foldl_cons]
    refine ih (entityStep host acc p) ?_ (fun x hx => hl x (List.mem_cons_of_mem _ hx))
    have hstep : (entityStep host acc p).fst
        = mset acc.fst (host p.fst)
            (addSummaries ((mget acc.fst (host p.fst)).getD defaultSummary) p.snd) := rfl
    rw [hstep]
    refine mapWF_mset hacc ?_
    have h1 := getD_wf hacc (host p.fst)
    have h2 := hl p (List.mem_cons_self _ _)
    exact add_le_add h1 h2

/-- C9: for every UrlSummary and every EntitySummary produced by
`getSummaries` on inputs with non-negative task self-times and a
non-negative CPU multiplier, `blockingTime ≤ mainThreadTime`; the invariant
holds through each per-task accumulation (`mapWF_addTask`) and is preserved
when URL summaries are folded into entity summaries
(`mapWF_entityFold`). -/
theorem c9_blocking_le_mainthread (attrib : TaskNode → String) (host : String → String)
    (networkRecords : List NetworkRecord) (mainThreadTasks : List TaskNode)
    (cpuMultiplier : ℚ) (hmult : 0 ≤ cpuMultiplier)
    (htasks : ∀ t ∈ mainThreadTasks, 0 ≤ t.selfTime) :
    mapWF (getSummaries attrib host networkRecords mainThreadTasks cpuMultiplier).byURL
    ∧ mapWF (getSummaries attrib host networkRecords mainThreadTasks cpuMultiplier).byEntity := by
  have h1 : mapWF (networkRecords.foldl addRecord []) :=
    mapWF_foldl_addRecord networkRecords [] mapWF_nil
  have h2 : mapWF (mainThreadTasks.foldl (addTask attrib cpuMultiplier)
      (networkRecords.foldl addRecord [])) :=
    mapWF_foldl_addTask attrib hmult mainThreadTasks htasks _ h1
  refine ⟨h2, ?_⟩
  exact mapWF_entityFold host _ (([], []) : JsMap UrlSummary × JsMap (List String))
    mapWF_nil h2

/-- Witness for C9 at a concrete input: a 100-byte third-party script, a
60-byte first-party script and one 80 ms task under multiplier 4. -/
theorem c9_witness :
    ((0:ℚ) ≤ 4 ∧ ∀ t ∈ artifactsEx.mainThreadTasks, 0 ≤ t.selfTime)
    ∧ (mapWF (getSummaries attribEx hostEx artifactsEx.networkRecords
          artifactsEx.mainThreadTasks 4).byURL
       ∧ mapWF (getSummaries attribEx hostEx artifactsEx.networkRecords
          artifactsEx.mainThreadTasks 4).byEntity) :=
  ⟨⟨by decide, by decide⟩,
    c9_blocking_le_mainthread attribEx hostEx artifactsEx.networkRecords
      artifactsEx.mainThreadTasks 4 (by decide) (by decide)⟩

/-! ### The audit verdict and first-party filtering -/

/-- C2: when at least one non-first-party row exists, `score = 1` iff the
accumulated overall `wastedMs` is at most the 250 ms pass threshold (else
`score = 0`), and the result is not marked not-applicable; with zero rows
the result is the distinct not-applicable shape (flagged `notApplicable`,
carrying no overall summary) rather than a pass/fail verdict. -/
theorem c2_verdict (attrib : TaskNode → String) (host : String → String)
    (artifacts : Artifacts) (settings : Settings) :
    ((audit attrib host artifacts settings).rows = [] →
      (audit attrib host artifacts settings).notApplicable = true
      ∧ (audit attrib host artifacts settings).overall = none)
    ∧ ((audit attrib host artifacts settings).rows ≠ [] →
      (audit attrib host artifacts settings).notApplicable = false
      ∧ ∃ o : OverallSummary, (audit attrib host artifacts settings).overall = some o
          ∧ ((audit attrib host artifacts settings).score = 1
              ↔ o.wastedMs ≤ PASS_THRESHOLD_IN_MS)) := by
  by_cases h : (auditRows attrib host artifacts settings).length = 0
  · have hA : audit attrib host artifacts settings = AuditResult.mk 1 true none [] none := by
      simp only [audit]
      rw [if_pos h]
    rw [hA]
    exact ⟨fun _ => ⟨rfl, rfl⟩, fun hne => absurd rfl hne⟩
  · have hA : audit attrib host artifacts settings
        = AuditResult.mk
            (if (auditOverall attrib host artifacts settings).wastedMs
                ≤ PASS_THRESHOLD_IN_MS then 1 else 0)
            false (some (auditOverall attrib host artifacts settings).wastedMs)
            (auditRows attrib host artifacts settings)
            (some (auditOverall attrib host artifacts settings)) := by
      simp only [audit]
      rw [if_neg h]
    rw [hA]
    constructor
    · intro hrows
      have h0 : auditRows attrib host artifacts settings = [] := hrows
      rw [h0] at h
      exact absurd rfl h
    · intro _
      refine ⟨rfl, auditOverall attrib host artifacts settings, rfl, ?_⟩
      by_cases hw : (auditOverall attrib host artifacts settings).wastedMs
          ≤ PASS_THRESHOLD_IN_MS
      · simp [hw]
      · simp [hw]

/-- Witness for C2: a populated input that passes (one third-party row,
30 ms of blocking time), and an empty input that is not-applicable. -/
theorem c2_witness :
    ((audit attribEx hostEx artifactsEx settingsEx).rows ≠ []
      ∧ (audit attribEx hostEx artifactsEx settingsEx).notApplicable = false
      ∧ ∃ o : OverallSummary, (audit attribEx hostEx artifactsEx settingsEx).overall = some o
          ∧ ((audit attribEx hostEx artifactsEx settingsEx).score = 1
              ↔ o.wastedMs ≤ PASS_THRESHOLD_IN_MS))
    ∧ ((audit attribEx hostEx artifactsEmpty settingsEx).rows = []
      ∧ (audit attribEx hostEx artifactsEmpty settingsEx).notApplicable = true) := by
  constructor
  · have h := (c2_verdict attribEx hostEx artifactsEx settingsEx).2 (by decide)
    exact ⟨by decide, h.1, h.2⟩
  · have h := (c2_verdict attribEx hostEx artifactsEmpty settingsEx).1 (by decide)
    exact ⟨by decide, h.1⟩

theorem audit_rows_eq (attrib : TaskNode → String) (host : String → String)
    (artifacts : Artifacts) (settings : Settings)
    (h : auditRows attrib host artifacts settings ≠ []) :
    (audit attrib host artifacts settings).rows
      = auditRows attrib host artifacts settings := by
  simp only [audit]
  rw [if_neg (fun hlen => h (List.length_eq_zero.mp hlen))]

theorem audit_rows_cases (attrib : TaskNode → String) (host : String → String)
    (artifacts : Artifacts) (settings : Settings) :
    (audit attrib host artifacts settings).rows = []
    ∨ (audit attrib host artifacts settings).rows
        = auditRows attrib host artifacts settings := by
  simp only [audit]
  split
  · exact Or.inl rfl
  · exact Or.inr rfl

theorem mem_auditRows {attrib : TaskNode → String} {host : String → String}
    {artifacts : Artifacts} {settings : Settings} {row : ReportRow}
    (hrow : row ∈ auditRows attrib host artifacts settings) :
    ∃ p, p ∈ auditFiltered attrib host artifacts settings
      ∧ row = ReportRow.mk p.snd.mainThreadTime p.snd.blockingTime p.snd.transferSize
          p.fst p.fst
          (makeSubItems p.fst (auditSummaries attrib host artifacts settings) p.snd) := by
  unfold auditRows at hrow
  rw [List.mem_insertionSort] at hrow
  obtain ⟨p, hp, heq⟩ := List.mem_map.mp hrow
  exact ⟨p, hp, heq.symm⟩

theorem auditRows_of_filtered {attrib : TaskNode → String} {host : String → String}
    {artifacts : Artifacts} {settings : Settings} {p : String × UrlSummary}
    (hp : p ∈ auditFiltered attrib host artifacts settings) :
    ReportRow.mk p.snd.mainThreadTime p.snd.blockingTime p.snd.transferSize
        p.fst p.fst
        (makeSubItems p.fst (auditSummaries attrib host artifacts settings) p.snd)
      ∈ auditRows attrib host artifacts settings := by
  unfold auditRows
  rw [List.mem_insertionSort]
  exact List.mem_map_of_mem _ hp

/-- Evaluation of the summaries on the `file:` example. -/
theorem summariesFile_eval :
    getSummaries attribEx hostFile artifactsFile.networkRecords
        artifactsFile.mainThreadTasks (multiplierOf settingsEx)
      = Summaries.mk [("file:///res", UrlSummary.mk 0 0 100)]
          [("", UrlSummary.mk 0 0 100)] [("", ["file:///res"])] := by
  with_unfolding_all rfl

/-- Evaluation of the summaries on the two-host example. -/
theorem summariesEx_eval :
    getSummaries attribEx hostEx artifactsEx.networkRecords
        artifactsEx.mainThreadTasks (multiplierOf settingsEx)
      = Summaries.mk
          [("https://a.com/x.js", UrlSummary.mk 80 30 100),
           ("https://b.com/y.js", UrlSummary.mk 0 0 60)]
          [("a.com", UrlSummary.mk 80 30 100), ("b.com", UrlSummary.mk 0 0 60)]
          [("a.com", ["https://a.com/x.js"]), ("b.com", ["https://b.com/y.js"])] := by
  with_unfolding_all rfl

/-- Full evaluation of the audit on the `file:` example: the empty-host
entity survives the filter and is reported. -/
theorem auditFile_eval :
    audit attribEx hostFile artifactsFile settingsEx
      = AuditResult.mk 1 false (some 0)
          [ReportRow.mk 0 0 100 "" "" []] (some (OverallSummary.mk 100 0)) := by
  with_unfolding_all rfl

/-- C3 (amended): whenever the final URL parses to a NON-EMPTY host, that
host never appears among the report rows' entities; every other entity of
`byEntity` — whose contributions are computed before the exclusion — does
appear among the rows. -/
theorem c3_first_party_excluded (attrib : TaskNode → String) (host : String → String)
    (artifacts : Artifacts) (settings : Settings)
    (hmain : host artifacts.finalUrl ≠ "") :
    (∀ row ∈ (audit attrib host artifacts settings).rows,
      row.entityText ≠ host artifacts.finalUrl)
    ∧ (∀ p ∈ (getSummaries attrib host artifacts.networkRecords
          artifacts.mainThreadTasks (multiplierOf settings)).byEntity,
        p.fst ≠ host artifacts.finalUrl →
          ∃ row ∈ (audit attrib host artifacts settings).rows,
            row.entityText = p.fst) := by
  constructor
  · intro row hrow
    rcases audit_rows_cases attrib host artifacts settings with hc | hc
    · rw [hc] at hrow
      cases hrow
    · rw [hc] at hrow
      obtain ⟨p, hp, heq⟩ := mem_auditRows hrow
      have hkept : keptByFilter (host artifacts.finalUrl) p.fst :=
        of_decide_eq_true (List.mem_filter.mp hp).2
      have hne : host artifacts.finalUrl ≠ p.fst := by
        intro hcontra
        exact hkept ⟨hmain, hcontra⟩
      rw [heq]
      exact fun hcontra => hne (hcontra.symm)
  · intro p hp hpne
    have hp2 : p ∈ auditFiltered attrib host artifacts settings := by
      refine List.mem_filter.mpr ⟨hp, decide_eq_true ?_⟩
      intro hcontra
      exact hpne (hcontra.2.symm)
    have hrow := auditRows_of_filtered hp2
    have hne2 : auditRows attrib host artifacts settings ≠ [] := by
      intro h0
      rw [h0] at hrow
      cases hrow
    refine ⟨ReportRow.mk p.snd.mainThreadTime p.snd.blockingTime p.snd.transferSize
      p.fst p.fst
      (makeSubItems p.fst (auditSummaries attrib host artifacts settings) p.snd), ?_, rfl⟩
    rw [audit_rows_eq attrib host artifacts settings hne2]
    exact hrow

/-- Counterexample to C3 as stated: for a `file:` page the final URL's host
is the empty string, the first-party filter keeps every entity, and the
empty-host entity appears among the report rows with 100 bytes. -/
theorem c3_counterexample :
    hostFile (artifactsFile.finalUrl) = ""
    ∧ ((audit attribEx hostFile artifactsFile settingsEx).rows.map
        (fun r => r.entityText)) = [""]
    ∧ ((audit attribEx hostFile artifactsFile settingsEx).rows.map
        (fun r => r.transferSize)) = [100] := by
  refine ⟨by decide, ?_, ?_⟩ <;> rw [auditFile_eval] <;> rfl

/-- Witness for the amended C3: page on `b.com` with both first- and
third-party bytes; `b.com` never appears among row entities although its
60-byte contribution is present in `byEntity`. -/
theorem c3_witness :
    (hostEx (artifactsEx.finalUrl) ≠ "")
    ∧ (∀ row ∈ (audit attribEx hostEx artifactsEx settingsEx).rows,
        row.entityText ≠ hostEx (artifactsEx.finalUrl))
    ∧ ("b.com", UrlSummary.mk 0 0 60)
        ∈ (getSummaries attribEx hostEx artifactsEx.networkRecords
            artifactsEx.mainThreadTasks (multiplierOf settingsEx)).byEntity
    ∧ (UrlSummary.mk (0:ℚ) 0 60).transferSize ≠ 0 := by
  exact ⟨by decide,
    (c3_first_party_excluded attribEx hostEx artifactsEx settingsEx (by decide)).1,
    by rw [summariesEx_eval]; decide, by decide⟩

/-- C10: when the final URL parses to an EMPTY host, the first-party filter
removes nothing: every entity of `byEntity` — the empty-host entity
included — appears among the report rows. -/
theorem c10_empty_host_keeps_all (attrib : TaskNode → String) (host : String → String)
    (artifacts : Artifacts) (settings : Settings)
    (hmain : host artifacts.finalUrl = "") :
    ∀ p ∈ (getSummaries attrib host artifacts.networkRecords
        artifacts.mainThreadTasks (multiplierOf settings)).byEntity,
      ∃ row ∈ (audit attrib host artifacts settings).rows,
        row.entityText = p.fst := by
  intro p hp
  have hp2 : p ∈ auditFiltered attrib host artifacts settings := by
    refine List.mem_filter.mpr ⟨hp, decide_eq_true ?_⟩
    intro hcontra
    exact hcontra.1 hmain
  have hrow := auditRows_of_filtered hp2
  have hne2 : auditRows attrib host artifacts settings ≠ [] := by
    intro h0
    rw [h0] at hrow
    cases hrow
  refine ⟨ReportRow.mk p.snd.mainThreadTime p.snd.blockingTime p.snd.transferSize
    p.fst p.fst
    (makeSubItems p.fst (auditSummaries attrib host artifacts settings) p.snd), ?_, rfl⟩
  rw [audit_rows_eq attrib host artifacts settings hne2]
  exact hrow

/-- Witness for C10: the `file:` page again — the empty-host entity, which
is the host of the final URL, appears among the rows. -/
theorem c10_witness :
    hostFile (artifactsFile.finalUrl) = ""
    ∧ ∃ row ∈ (audit attribEx hostFile artifactsFile settingsEx).rows,
        row.entityText = "" := by
  refine ⟨by decide, ?_⟩
  exact c10_empty_host_keeps_all attribEx hostFile artifactsFile settingsEx (by decide)
    ("", UrlSummary.mk 0 0 100) (by rw [summariesFile_eval]; decide)

/-! ### Sub-item selection lemmas -/

theorem selectLoop_length_le (minTransferSize : ℚ) :
    ∀ (l : List SubItem) (n : Nat),
      (selectLoop minTransferSize l n).length ≤ n := by
  intro l
  induction l with
  | nil =>
    intro n
    cases n <;> simp [selectLoop]
  | cons item rest ih =>
    intro n
    cases n with
    | zero => simp [selectLoop]
    | succ n =>
      by_cases h : item.blockingTime = 0 ∧ item.transferSize < minTransferSize
      · simp [selectLoop, if_pos h]
      · simp only [selectLoop, if_neg h, List.length_cons]
        exact Nat.succ_le_succ (ih n)

theorem selectLoop_sum_le (f : SubItem → ℚ) (minTransferSize : ℚ) :
    ∀ (l : List SubItem) (n : Nat), (∀ x ∈ l, 0 ≤ f x) →
      ((selectLoop minTransferSize l n).map f).sum ≤ (l.map f).sum := by
  intro l
  induction l with
  | nil =>
    intro n _
    cases n <;> simp [selectLoop]
  | cons item rest ih =>
    intro n hl
    have hsum : (0:ℚ) ≤ ((item :: rest).map f).sum := by
      apply List.sum_nonneg
      intro x hx
      obtain ⟨y, hy, rfl⟩ := List.mem_map.mp hx
      exact hl y hy
    cases n with
    | zero => simpa [selectLoop] using hsum
    | succ n =>
      by_cases h : item.blockingTime = 0 ∧ item.transferSize < minTransferSize
      · simpa [selectLoop, if_pos h] using hsum
      · simp only [selectLoop, if_neg h, List.map_cons, List.sum_cons]
        exact add_le_add_left (ih n (fun x hx => hl x (List.mem_cons_of_mem _ hx))) _

theorem selectLoop_all_stop (minTransferSize : ℚ) :
    ∀ (l : List SubItem) (n : Nat),
      (∀ it ∈ l, it.blockingTime = 0 ∧ it.transferSize < minTransferSize) →
        selectLoop minTransferSize l n = [] := by
  intro l n h
  cases l with
  | nil => cases n <;> rfl
  | cons item rest =>
    cases n with
    | zero => rfl
    | succ n =>
      simp only [selectLoop]
      rw [if_pos (h item (List.mem_cons_self _ _))]

theorem sum_map_filter_le (f : SubItem → ℚ) (p : SubItem → Bool) :
    ∀ l : List SubItem, (∀ x ∈ l, 0 ≤ f x) →
      (((l.filter p).map f)).sum ≤ ((l.map f)).sum := by
  intro l
  induction l with
  | nil => intro _; simp
  | cons x rest ih =>
    intro hl
    have hrest := ih (fun y hy => hl y (List.mem_cons_of_mem _ hy))
    by_cases hp : p x
    · simp only [List.filter_cons_of_pos hp, List.map_cons, List.sum_cons]
      exact add_le_add_left hrest _
    · simp only [List.filter_cons_of_neg hp, List.map_cons, List.sum_cons]
      refine le_trans hrest ?_
      exact le_add_of_nonneg_left (hl x (List.mem_cons_self _ _))

theorem selectedSubItems_length_le (entity : String) (summaries : Summaries)
    (stats : UrlSummary) : (selectedSubItems entity summaries stats).length ≤ 100 := by
  unfold selectedSubItems
  refine le_trans (selectLoop_length_le _ _ _) ?_
  refine le_trans (min_le_left _ _) ?_
  norm_num [MAX_SUBITEMS]

/-- C8: for every entity, summaries and stats, the list returned by
`makeSubItems` has at most 101 entries: at most `MAX_SUBITEMS = 100`
selected URL items plus at most one remainder item. -/
theorem c8_subitem_bound (entity : String) (summaries : Summaries) (stats : UrlSummary) :
    (makeSubItems entity summaries stats).length ≤ 101 := by
  have hsel := selectedSubItems_length_le entity summaries stats
  unfold makeSubItems
  by_cases hz : selectedBlockingTime entity summaries stats = 0
      ∧ selectedTransferSize entity summaries stats = 0
  · rw [if_pos hz]
    simp
  · rw [if_neg hz]
    by_cases hlt : minTransferSizeOf stats
        < (remainderOf entity summaries stats).transferSize
    · rw [if_pos hlt]
      rw [List.length_append]
      simpa using Nat.add_le_add hsel (le_refl 1)
    · rw [if_neg hlt]
      exact le_trans hsel (by norm_num)

/-- C7: if, after filtering zero-transfer URLs, sorting, and walking the
candidate list, the selected subtotal is entirely zero (no item passed the
stop rule), `makeSubItems` returns the empty list. -/
theorem c7_zero_subtotal (entity : String) (summaries : Summaries) (stats : UrlSummary)
    (h : selectedBlockingTime entity summaries stats = 0
      ∧ selectedTransferSize entity summaries stats = 0) :
    makeSubItems entity summaries stats = [] := by
  unfold makeSubItems
  rw [if_pos h]

theorem mget_map_const {α : Type} (c : α) :
    ∀ (l : List String) (k : String) (v : α),
      mget (l.map (fun u => (u, c))) k = some v → v = c := by
  intro l
  induction l with
  | nil =>
    intro k v h
    simp [mget] at h
  | cons u rest ih =>
    intro k v h
    by_cases hu : u = k
    · simp only [List.map_cons, mget, if_pos hu] at h
      exact (Option.some.inj h).symm
    · simp only [List.map_cons, mget, if_neg hu] at h
      exact ih k v h

theorem candidates200_all_stop :
    ∀ it ∈ candidateItems ("a.com") summaries200,
      it.blockingTime = 0 ∧ it.transferSize < minTransferSizeOf stats200 := by
  have hmin : (4096:ℚ) ≤ minTransferSizeOf stats200 := le_max_left _ _
  intro it hit
  unfold candidateItems at hit
  rw [List.mem_insertionSort] at hit
  obtain ⟨url, hurl, heq⟩ := List.mem_map.mp (List.mem_filter.mp hit).1
  rw [← heq]
  cases hm : mget summaries200.byURL url with
  | none =>
    unfold subItemOfURL
    rw [hm]
    refine ⟨rfl, ?_⟩
    calc ((none : Option UrlSummary).getD defaultSummary).transferSize = 0 := rfl
    _ < 4096 := by norm_num
    _ ≤ minTransferSizeOf stats200 := hmin
  | some v =>
    have hv : v = UrlSummary.mk 0 0 100 := mget_map_const (UrlSummary.mk 0 0 100) urls200 url v hm
    unfold subItemOfURL
    rw [hm, hv]
    refine ⟨rfl, ?_⟩
    calc ((some (UrlSummary.mk 0 0 100)).getD defaultSummary).transferSize = 100 := rfl
    _ < 4096 := by norm_num
    _ ≤ minTransferSizeOf stats200 := hmin

theorem selected200_empty :
    selectedSubItems ("a.com") summaries200 stats200 = [] := by
  unfold selectedSubItems
  exact selectLoop_all_stop _ _ _ candidates200_all_stop

/-- Witness for C7 at spec §8 Scenario 5: one entity with 200 distinct
100-byte zero-blocking URLs; the selected subtotal stays zero and the
sub-item list is empty although the entity total (20000 bytes) is not. -/
theorem c7_witness :
    (selectedBlockingTime ("a.com") summaries200 stats200 = 0
      ∧ selectedTransferSize ("a.com") summaries200 stats200 = 0)
    ∧ makeSubItems ("a.com") summaries200 stats200 = []
    ∧ stats200.transferSize = 20000
    ∧ urls200.length = 200 := by
  have hb : selectedBlockingTime ("a.com") summaries200 stats200 = 0 := by
    unfold selectedBlockingTime
    rw [selected200_empty]
    rfl
  have ht : selectedTransferSize ("a.com") summaries200 stats200 = 0 := by
    unfold selectedTransferSize
    rw [selected200_empty]
    rfl
  refine ⟨⟨hb, ht⟩, c7_zero_subtotal ("a.com") summaries200 stats200 ⟨hb, ht⟩, rfl, ?_⟩
  simp [urls200]

/-- Counterexample to C6 as stated: a one-URL entity whose lone 100-byte URL
stops the walk immediately, so the selected subtotal is zero and
`makeSubItems` returns `[]` — the remainder is NOT appended although its
transferSize (20000) exceeds `minTransferSize` (4096). -/
theorem c6_counterexample :
    makeSubItems ("a.com") summariesSmall statsSmall = []
    ∧ minTransferSizeOf statsSmall
        < (remainderOf ("a.com") summariesSmall statsSmall).transferSize := by
  constructor
  · with_unfolding_all rfl
  · have h1 : minTransferSizeOf statsSmall = 4096 := by with_unfolding_all rfl
    have h2 : (remainderOf ("a.com") summariesSmall statsSmall).transferSize = 20000 := by
      with_unfolding_all rfl
    rw [h1, h2]
    norm_num

/-- C6 (amended): provided the entity's stats dominate its per-URL
summaries (every looked-up URL transfer size is non-negative and their sum
is at most `stats.transferSize` — true of the summaries `audit` passes in),
the remainder row is appended iff the selected subtotal is nonzero AND the
remainder's transferSize strictly exceeds
`minTransferSize = max(4096, stats.transferSize / 20)`; when present it
satisfies `remainder.transferSize + selected transferSize =
stats.transferSize` (likewise for blockingTime), and the returned items'
bytes never exceed the entity's total bytes. -/
theorem c6_remainder (entity : String) (summaries : Summaries) (stats : UrlSummary)
    (hnn : ∀ url ∈ entityURLsOf entity summaries,
      0 ≤ (subItemOfURL summaries url).transferSize)
    (htot : ((entityURLsOf entity summaries).map
        (fun url => (subItemOfURL summaries url).transferSize)).sum
      ≤ stats.transferSize) :
    (makeSubItems entity summaries stats
        = selectedSubItems entity summaries stats
            ++ [remainderOf entity summaries stats]
      ↔ (¬ (selectedBlockingTime entity summaries stats = 0
            ∧ selectedTransferSize entity summaries stats = 0)
          ∧ minTransferSizeOf stats
              < (remainderOf entity summaries stats).transferSize))
    ∧ (remainderOf entity summaries stats).transferSize
        + selectedTransferSize entity summaries stats = stats.transferSize
    ∧ (remainderOf entity summaries stats).blockingTime
        + selectedBlockingTime entity summaries stats = stats.blockingTime
    ∧ ((makeSubItems entity summaries stats).map (fun i => i.transferSize)).sum
        ≤ stats.transferSize := by
  have hnn2 : ∀ x ∈ (entityURLsOf entity summaries).map (subItemOfURL summaries),
      0 ≤ x.transferSize := by
    intro x hx
    obtain ⟨url, hurl, rfl⟩ := List.mem_map.mp hx
    exact hnn url hurl
  have h00 : 0 ≤ stats.transferSize := by
    refine le_trans ?_ htot
    apply List.sum_nonneg
    intro x hx
    obtain ⟨url, hurl, rfl⟩ := List.mem_map.mp hx
    exact hnn url hurl
  have hcand : ((candidateItems entity summaries).map (fun i => i.transferSize)).sum
      ≤ stats.transferSize := by
    unfold candidateItems
    rw [((List.perm_insertionSort subItemBefore _).map (fun i => i.transferSize)).sum_eq]
    refine le_trans (sum_map_filter_le _ _ _ hnn2) ?_
    rw [List.map_map]
    exact htot
  have hTle : selectedTransferSize entity summaries stats ≤ stats.transferSize := by
    refine le_trans ?_ hcand
    unfold selectedTransferSize selectedSubItems
    refine selectLoop_sum_le _ _ _ _ ?_
    intro x hx
    unfold candidateItems at hx
    rw [List.mem_insertionSort] at hx
    have h2 := of_decide_eq_true (List.mem_filter.mp hx).2
    linarith
  have hsum : selectedTransferSize entity summaries stats
      + (remainderOf entity summaries stats).transferSize = stats.transferSize := by
    show selectedTransferSize entity summaries stats
      + (stats.transferSize - selectedTransferSize entity summaries stats)
      = stats.transferSize
    ring
  refine ⟨?_, ?_, ?_, ?_⟩
  · unfold makeSubItems
    by_cases hz : selectedBlockingTime entity summaries stats = 0
        ∧ selectedTransferSize entity summaries stats = 0
    · rw [if_pos hz]
      constructor
      · intro h
        have h2 := List.append_eq_nil.mp h.symm
        exact absurd h2.2 (by simp)
      · intro h
        exact absurd hz h.1
    · rw [if_neg hz]
      by_cases hlt : minTransferSizeOf stats
          < (remainderOf entity summaries stats).transferSize
      · rw [if_pos hlt]
        exact ⟨fun _ => ⟨hz, hlt⟩, fun _ => rfl⟩
      · rw [if_neg hlt]
        constructor
        · intro h
          have hlen := congrArg List.length h
          simp at hlen
        · intro h
          exact absurd h.2 hlt
  · show stats.transferSize - selectedTransferSize entity summaries stats
      + selectedTransferSize entity summaries stats = stats.transferSize
    ring
  · show stats.blockingTime - selectedBlockingTime entity summaries stats
      + selectedBlockingTime entity summaries stats = stats.blockingTime
    ring
  · unfold makeSubItems
    by_cases hz : selectedBlockingTime entity summaries stats = 0
        ∧ selectedTransferSize entity summaries stats = 0
    · rw [if_pos hz]
      simpa using h00
    · rw [if_neg hz]
      by_cases hlt : minTransferSizeOf stats
          < (remainderOf entity summaries stats).transferSize
      · rw [if_pos hlt]
        rw [List.map_append, List.sum_append]
        simp only [List.map_cons, List.map_nil, List.sum_cons, List.sum_nil, add_zero]
        exact le_of_eq hsum
      · rw [if_neg hlt]
        exact hTle

/-- Witness for the amended C6: a one-URL entity carrying its whole
10000-byte total; the hypotheses hold, the URL is selected, and the
remainder equations and byte bound follow by applying the theorem. -/
theorem c6_witness :
    ((∀ url ∈ entityURLsOf ("a.com") summariesBig,
        0 ≤ (subItemOfURL summariesBig url).transferSize)
      ∧ ((entityURLsOf ("a.com") summariesBig).map
          (fun url => (subItemOfURL summariesBig url).transferSize)).sum
        ≤ statsBig.transferSize)
    ∧ (remainderOf ("a.com") summariesBig statsBig).transferSize
        + selectedTransferSize ("a.com") summariesBig statsBig
        = statsBig.transferSize
    ∧ ((makeSubItems ("a.com") summariesBig statsBig).map
        (fun i => i.transferSize)).sum ≤ statsBig.transferSize := by
  have h1 : ∀ url ∈ entityURLsOf ("a.com") summariesBig,
      0 ≤ (subItemOfURL summariesBig url).transferSize := by decide
  have h2 : ((entityURLsOf ("a.com") summariesBig).map
      (fun url => (subItemOfURL summariesBig url).transferSize)).sum
      ≤ statsBig.transferSize := by
    with_unfolding_all exact le_of_eq rfl
  exact ⟨⟨h1, h2⟩, (c6_remainder ("a.com") summariesBig statsBig h1 h2).2.1,
    (c6_remainder ("a.com") summariesBig statsBig h1 h2).2.2.2⟩
